import Mathlib

/-!
# wg-x: verification of the tunnel-configuration frontend against its spec

Shallow embedding of the JavaScript tunnel-management frontend of wg-x
(React + Tauri `invoke` calls).  Pure data transformations of the handlers
(`handleSaveConfig`, `handleEditTunnel`, `handleSaveServer`, `useToast`,
`usePeerStatsListener`, `formatTime`, `TunnelCard`) are translated directly
from the source.  The Rust backend (tunnel registry, orchestrator) is not part
of the sources; where a claim depends on it, the backend behaviour is
modelled from the spec and marked as such in the doc comment.

Conventions for modelling JavaScript values:
* form fields are strings; a missing (`undefined`) field and the empty string
  are both falsy in JS and are both modelled as `""`;
* document fields written as `x || null` are modelled as `Option String`
  (`none` = JSON `null`);
* `persistentKeepalive` is a JS number (the form always stores
  `parseInt(v) || 0`), modelled as `Int`.
-/

/-- JS `s || null` for a string `s`: `null` when the string is empty. -/
def jsStrOrNull (s : String) : Option String :=
  if s = "" then none else some s

/-- JS `v || d` where `v` is a string-or-null document field:
the default is taken when the field is `null` or the empty string. -/
def jsOptOr (v : Option String) (d : String) : String :=
  match v with
  | none => d
  | some s => if s = "" then d else s

/-- JS `s || d` for two strings: the default is taken when `s` is empty. -/
def jsStrOr (s d : String) : String :=
  if s = "" then d else s

/-! ## Tunnel configuration: form state and persisted document -/

/-- One peer as held in the React form state of `TunnelManagementView`
(`config.peers[i]`).  Fields that the form may leave `undefined`
(`clientPrivateKey`, `remark`) are modelled as `""`, which is falsy in JS
exactly like `undefined`. -/
structure FormPeer where
  publicKey : String
  clientPrivateKey : String
  presharedKey : String
  endpoint : String
  address : String
  allowedIps : String
  persistentKeepalive : Int
  remark : String
deriving DecidableEq

/-- One peer of the persisted tunnel document, as built by `handleSaveConfig`
(fields `public_key`, …, `remark`). -/
structure DocPeer where
  public_key : String
  client_private_key : Option String
  preshared_key : Option String
  endpoint : Option String
  address : Option String
  allowed_ips : String
  persistent_keepalive : Option Int
  remark : Option String
deriving DecidableEq

/-- The React form state `config` of `TunnelManagementView`. -/
structure FormConfig where
  name : String
  mode : String
  privateKey : String
  address : String
  listenPort : String
  dns : String
  mtu : String
  serverEndpoint : String
  serverAllowedIps : String
  peers : List FormPeer
deriving DecidableEq

/-- The persisted tunnel document (`tunnelConfig` in `handleSaveConfig`,
`fullConfig` in `handleEditTunnel`). -/
structure TunnelDoc where
  id : String
  name : String
  mode : String
  private_key : String
  address : String
  listen_port : String
  dns : String
  mtu : String
  server_endpoint : String
  server_allowed_ips : String
  peers : List DocPeer
  created_at : Nat
deriving DecidableEq

/-- The peer part of the form→document mapping in `handleSaveConfig`
(`config.peers.map(peer => ({...}))`). -/
def handleSaveConfigPeer (p : FormPeer) : DocPeer where
  public_key := p.publicKey
  client_private_key := jsStrOrNull p.clientPrivateKey
  preshared_key := jsStrOrNull p.presharedKey
  endpoint := jsStrOrNull p.endpoint
  address := jsStrOrNull p.address
  allowed_ips := p.allowedIps
  persistent_keepalive :=
    if p.persistentKeepalive = 0 then none else some p.persistentKeepalive
  remark := jsStrOrNull p.remark

/-- The peer part of the document→form mapping in `handleEditTunnel`
(`fullConfig.peers.map(p => ({...}))`). -/
def handleEditTunnelPeer (p : DocPeer) : FormPeer where
  publicKey := jsStrOr p.public_key ""
  clientPrivateKey := jsOptOr p.client_private_key ""
  presharedKey := jsOptOr p.preshared_key ""
  endpoint := jsOptOr p.endpoint ""
  address := jsOptOr p.address ""
  allowedIps := jsStrOr p.allowed_ips "0.0.0.0/0"
  persistentKeepalive :=
    match p.persistent_keepalive with
    | none => 25
    | some k => if k = 0 then 25 else k
  remark := jsOptOr p.remark ""

/-- The document object built by `handleSaveConfig` once validation has
passed: a fresh creation takes `Date.now().toString()` as id, an edit reuses
`editingConfig.id`. -/
def handleSaveConfigDoc (c : FormConfig) (editingId : Option String)
    (nowMs : Nat) : TunnelDoc where
  id :=
    match editingId with
    | some i => i
    | none => toString nowMs
  name := c.name
  mode := c.mode
  private_key := c.privateKey
  address := c.address
  -- `String(config.listenPort || '')`: identity on the string-valued form field
  listen_port := jsStrOr c.listenPort ""
  dns := jsStrOr c.dns ""
  -- `String(config.mtu || '1420')`
  mtu := jsStrOr c.mtu "1420"
  server_endpoint := jsStrOr c.serverEndpoint ""
  server_allowed_ips := jsStrOr c.serverAllowedIps "0.0.0.0/0"
  peers := c.peers.map handleSaveConfigPeer
  created_at := nowMs

/-- The form state installed by `handleEditTunnel` from a loaded document
(`setConfig({...})`); an empty or absent peer list loads as `[]`, which
coincides with mapping over the empty list. -/
def handleEditTunnelForm (d : TunnelDoc) : FormConfig where
  name := d.name
  mode := jsStrOr d.mode "server"
  privateKey := jsStrOr d.private_key ""
  address := jsStrOr d.address ""
  listenPort := jsStrOr d.listen_port ""
  dns := jsStrOr d.dns ""
  mtu := jsStrOr d.mtu "1420"
  serverEndpoint := jsStrOr d.server_endpoint ""
  serverAllowedIps := jsStrOr d.server_allowed_ips "0.0.0.0/0"
  peers := d.peers.map handleEditTunnelPeer

/-- The peer added by `handleConfirmQuickAdd` ("快速添加客户端"): freshly
generated key pair and PSK, address and allowed-IPs both the derived client
IP, `persistentKeepalive: 0`, non-empty trimmed remark. -/
def quickAddClientPeer (pubKey privKey psk clientIp remark : String) :
    FormPeer where
  publicKey := pubKey
  clientPrivateKey := privKey
  presharedKey := psk
  endpoint := ""
  address := clientIp
  allowedIps := clientIp
  persistentKeepalive := 0
  remark := remark

/-! ## Validation in `handleSaveConfig` -/

/-- `peerLabel` of the validation loop of `handleSaveConfig`:
`config.mode === 'server' ? `Peer ${i + 1}` : '服务端'`. -/
def savePeerLabel (mode : String) (i : Nat) : String :=
  if mode = "server" then "Peer " ++ toString (i + 1) else "服务端"

/-- The `for` loop over `config.peers` in `handleSaveConfig`: first failing
check wins, `i` is the 0-based index. -/
def validateSavePeers (mode : String) : Nat → List FormPeer → Option String
  | _, [] => none
  | i, p :: rest =>
    if p.publicKey = "" then some (savePeerLabel mode i ++ ": 请输入公钥")
    else if p.allowedIps = "" then
      some (savePeerLabel mode i ++ ": 请输入 AllowedIPs")
    else if mode = "client" ∧ p.endpoint = "" then
      some "请输入服务端地址 (Endpoint)"
    else validateSavePeers mode (i + 1) rest

/-- The sequential validation of `handleSaveConfig` (lines before
`setLoading(true)`).  Returns the toast message of the first failing check,
`none` when every check passes. -/
def validateSaveConfig (c : FormConfig) : Option String :=
  if c.name = "" then some "请输入隧道名称"
  else if c.mode = "" then some "请选择运行模式"
  else if c.privateKey = "" then some "请生成或输入私钥"
  else if c.address = "" then some "请输入本地 IP 地址"
  else if c.mode = "server" ∧ c.serverEndpoint = "" then
    some "请输入服务端地址 (公网 IP 或域名)"
  else if c.peers.length = 0 then
    some (if c.mode = "server" then "请至少添加一个 Peer" else "请配置要连接的服务端")
  else validateSavePeers c.mode 0 c.peers

/-! ## Tunnel registry (backend)

The Rust side of `save_tunnel_config` / `get_tunnel_config` /
`delete_tunnel_config` is not among the sources; it is modelled from the
spec. -/

/-- Modelled from the spec: the TunnelRegistry backing `save_tunnel_config`
(missing Rust backend) — "durable CRUD store for tunnel configuration
documents", one document per tunnel id; saving updates the document with the
given id or creates it. -/
def saveTunnelConfig (reg : List TunnelDoc) (d : TunnelDoc) : List TunnelDoc :=
  if reg.any (fun e => e.id = d.id) then
    reg.map (fun e => if e.id = d.id then d else e)
  else reg ++ [d]

/-- Modelled from the spec: the TunnelRegistry lookup backing
`get_tunnel_config` (missing Rust backend) — `get(id) -> TunnelConfig`,
failing (here `none`) when the id is absent. -/
def getTunnelConfig (reg : List TunnelDoc) (id : String) : Option TunnelDoc :=
  reg.find? (fun e => e.id = id)

/-- `handleSaveConfig` as a state transformer on the stored documents:
validation failures return before the `invoke('save_tunnel_config', …)` call,
leaving the store unchanged (`false` = nothing persisted). -/
def handleSaveConfig (reg : List TunnelDoc) (c : FormConfig)
    (editingId : Option String) (nowMs : Nat) : List TunnelDoc × Bool :=
  match validateSaveConfig c with
  | some _ => (reg, false)
  | none => (saveTunnelConfig reg (handleSaveConfigDoc c editingId nowMs), true)

/-! ## Server management (`ServerManagementView`) -/

/-- The React form state `formData` of `ServerManagementView`. -/
structure ServerForm where
  id : String
  name : String
  peer_public_key : String
  preshared_key : String
  endpoint : String
  allowed_ips : String
  persistent_keepalive : String
  ikuai_interface : String
  next_peer_id : Nat
deriving DecidableEq

/-- JS `String.prototype.trim()` (the built-in `String.trim` of the Lean
library is not kernel-reducible, so trimming is spelled out on the character
list; JS's `\s`-like trim set is modelled by `Char.isWhitespace`). -/
def jsTrim (s : String) : String :=
  String.mk (((s.data.dropWhile Char.isWhitespace).reverse.dropWhile
    Char.isWhitespace).reverse)

/-- JS `s.includes(" ")`: the single-character substring test. -/
def jsIncludesSpace (s : String) : Bool :=
  s.data.any (fun c => c == ' ')

/-- JS `formData.allowed_ips.replace(/\s/g, "")`: drop every whitespace
character. -/
def stripJsWhitespace (s : String) : String :=
  String.mk (s.data.filter (fun c => !c.isWhitespace))

/-- JS `String.prototype.split(sep)` for a one-character separator, on the
character list.  An empty input yields one empty part, like JS. -/
def splitOnChar (sep : Char) : List Char → List (List Char)
  | [] => [[]]
  | c :: rest =>
    let r := splitOnChar sep rest
    if c == sep then [] :: r
    else
      match r with
      | g :: gs => (c :: g) :: gs
      | [] => [[c]]

/-- The test of `endpointRegex = /^([a-zA-Z0-9.-]+):(\d+)$/`: since neither
character class may contain `:`, the string matches iff it splits at a single
colon into a non-empty host of `[a-zA-Z0-9.-]` and a non-empty run of
digits. -/
def jsEndpointPatternTest (s : String) : Bool :=
  match splitOnChar ':' s.data with
  | [host, port] =>
    !host.isEmpty && host.all (fun c => c.isAlphanum || c == '.' || c == '-') &&
      !port.isEmpty && port.all Char.isDigit
  | _ => false

/-- A 1–3 digit group of the IPv4 alternative of `cidrRegex`. -/
def ipv4GroupOk (g : List Char) : Bool :=
  decide (1 ≤ g.length) && decide (g.length ≤ 3) && g.all Char.isDigit

/-- The IPv4 alternative `^([0-9]{1,3}\.){3}[0-9]{1,3}\/[0-9]{1,2}$` of
`cidrRegex`: neither side of the (unique) slash may contain `/`, and the dot
separates exactly four digit groups. -/
def jsCidrIPv4Test (s : List Char) : Bool :=
  match splitOnChar '/' s with
  | [ip, mask] =>
    (match splitOnChar '.' ip with
     | [a, b, c, d] => ipv4GroupOk a && ipv4GroupOk b && ipv4GroupOk c && ipv4GroupOk d
     | _ => false) &&
      decide (1 ≤ mask.length) && decide (mask.length ≤ 2) && mask.all Char.isDigit
  | _ => false

/-- A character of the class `[0-9a-fA-F:]`. -/
def isHexColonChar (c : Char) : Bool :=
  c.isDigit || (c ≥ 'a' && c ≤ 'f') || (c ≥ 'A' && c ≤ 'F') || c == ':'

/-- The IPv6 alternative `^([0-9a-fA-F:]+)\/[0-9]{1,3}$` of `cidrRegex`. -/
def jsCidrIPv6Test (s : List Char) : Bool :=
  match splitOnChar '/' s with
  | [addr, mask] =>
    !addr.isEmpty && addr.all isHexColonChar &&
      decide (1 ≤ mask.length) && decide (mask.length ≤ 3) && mask.all Char.isDigit
  | _ => false

/-- The full `cidrRegex.test` of `handleSaveServer`. -/
def jsCidrTest (s : List Char) : Bool :=
  jsCidrIPv4Test s || jsCidrIPv6Test s

/-- Exponent suffix of a JS decimal number literal: empty, or `e`/`E`,
an optional sign, then at least one digit. -/
def jsExponentPart (cs : List Char) : Bool :=
  match cs with
  | [] => true
  | c :: rest =>
    (c == 'e' || c == 'E') &&
      (let rest2 :=
        match rest with
        | c2 :: r2 => if c2 == '+' || c2 == '-' then r2 else rest
        | [] => ([] : List Char)
      !rest2.isEmpty && rest2.all Char.isDigit)

/-- Body of a JS decimal number literal (sign already stripped):
`digits [. digits] [exp]` or `. digits [exp]`. -/
def jsDecimalLiteral (cs : List Char) : Bool :=
  let intPart := cs.takeWhile Char.isDigit
  let rest := cs.dropWhile Char.isDigit
  match rest with
  | [] => !intPart.isEmpty
  | '.' :: rest2 =>
    let fracPart := rest2.takeWhile Char.isDigit
    let rest3 := rest2.dropWhile Char.isDigit
    (!intPart.isEmpty || !fracPart.isEmpty) && jsExponentPart rest3
  | _ => !intPart.isEmpty && jsExponentPart rest

/-- A hex digit. -/
def isHexDigitChar (c : Char) : Bool :=
  c.isDigit || (c ≥ 'a' && c ≤ 'f') || (c ≥ 'A' && c ≤ 'F')

/-- Whether JS `Number(s)` yields a non-NaN value: after trimming, the empty
string coerces to `0`; otherwise the string must be a decimal literal with
optional sign, an `Infinity` with optional sign, or an unsigned `0x` hex
literal.  (Binary/octal prefixes behave like hex and are of no relevance to
the keep-alive field validated here.) -/
def jsNumericString (s : String) : Bool :=
  match (jsTrim s).data with
  | [] => true
  | '0' :: 'x' :: hx => !hx.isEmpty && hx.all isHexDigitChar
  | '0' :: 'X' :: hx => !hx.isEmpty && hx.all isHexDigitChar
  | t =>
    let body :=
      match t with
      | c :: rest => if c == '+' || c == '-' then rest else t
      | [] => t
    body == "Infinity".data || jsDecimalLiteral body

/-- JS `isNaN(s)` for a string `s`, as used on `persistent_keepalive`. -/
def jsNumberIsNaN (s : String) : Bool :=
  !jsNumericString s

/-- The sequential validation of `handleSaveServer` in
`ServerManagementView`: the toast message of the first failing check, `none`
when every check passes (JS `.length` counts UTF-16 units, which agrees with
the character count for the ASCII keys at issue). -/
def validateSaveServer (f : ServerForm) : Option String :=
  if jsTrim f.name = "" then some "请输入服务端名称"
  else if jsIncludesSpace f.name then some "服务端名称不允许包含空格"
  else if jsTrim f.peer_public_key = "" then some "请输入服务端公钥"
  else if jsIncludesSpace f.peer_public_key then some "服务端公钥不允许包含空格"
  else if f.peer_public_key.length ≠ 44 then some "服务端公钥长度必须为 44 个字符"
  else if f.preshared_key ≠ "" ∧ jsIncludesSpace f.preshared_key then
    some "预共享密钥不允许包含空格"
  else if f.preshared_key ≠ "" ∧ f.preshared_key.length ≠ 44 then
    some "预共享密钥长度必须为 44 个字符"
  else if jsTrim f.endpoint = "" then some "请输入 Endpoint 地址"
  else if jsIncludesSpace f.endpoint then some "Endpoint 地址不允许包含空格"
  else if !jsEndpointPatternTest f.endpoint then
    some "Endpoint 格式不正确，应为 IP:端口 或 域名:端口（例如: example.com:51820 或 1.2.3.4:51820）"
  else if jsTrim f.allowed_ips = "" then some "请输入 AllowedIPs"
  else if jsIncludesSpace f.allowed_ips then some "AllowedIPs 不允许包含空格"
  else
    let cidrList :=
      (splitOnChar ',' (stripJsWhitespace f.allowed_ips).data).filter
        (fun ip => ip.length > 0)
    if cidrList.length = 0 then some "AllowedIPs 不能为空"
    else
      match cidrList.find? (fun cidr => !jsCidrTest cidr) with
      | some cidr =>
        some ("AllowedIPs 格式不正确: \"" ++ String.mk cidr ++
          "\" 不是有效的 CIDR 格式（应为 IP/掩码，例如: 0.0.0.0/0 或 192.168.1.0/24）")
      | none =>
        if jsIncludesSpace f.persistent_keepalive then
          some "PersistentKeepalive 不允许包含空格"
        else if f.persistent_keepalive ≠ "" ∧ jsNumberIsNaN f.persistent_keepalive then
          some "PersistentKeepalive 必须为数字"
        else if jsIncludesSpace f.ikuai_interface then
          some "路由器接口名称不允许包含空格"
        else none

/-- A 44-character, space-free stand-in for a base64 WireGuard public key. -/
def exampleServerKey : String :=
  String.mk (List.replicate 43 'A' ++ ['='])

/-- A server form that passes every check of `handleSaveServer`. -/
def exampleServerForm : ServerForm where
  id := "1700000000000"
  name := "home-router"
  peer_public_key := exampleServerKey
  preshared_key := ""
  endpoint := "1.2.3.4:51820"
  allowed_ips := "0.0.0.0/0,::/0"
  persistent_keepalive := "25"
  ikuai_interface := "wg_0"
  next_peer_id := 1

/-! ## Orchestrator runtime model (backend, Linux daemon / executor)

The Rust orchestrator behind `start_tunnel` / `stop_tunnel` /
`delete_tunnel_config` is not among the sources; its guaranteed behaviour is
modelled from the spec. -/

/-- The typed error of the spec's failure taxonomy relevant here. -/
inductive OrchError where
  | conflict
deriving DecidableEq

/-- Runtime state of the orchestrator: the stored documents and the ids that
own a live WireGuard process. -/
structure OrchState where
  configs : List TunnelDoc
  liveProcs : List String
deriving DecidableEq

/-- Modelled from the spec: the missing Rust `delete_tunnel_config` —
"deleting while status==Running is rejected with a typed Conflict"; otherwise
the stored document with that id is removed. -/
def delete_tunnel_config (st : OrchState) (id : String) :
    Except OrchError OrchState :=
  if st.liveProcs.contains id then Except.error OrchError.conflict
  else Except.ok { st with configs := st.configs.filter (fun d => !(d.id == id)) }

/-- Modelled from the spec: the missing Rust `stop_tunnel` — "stopping an
already-stopped tunnel is a no-op success"; a successful stop leaves no live
process owning the id. -/
def stop_tunnel (st : OrchState) (id : String) : OrchState :=
  { st with liveProcs := st.liveProcs.filter (fun x => !(x == id)) }

/-- Modelled from the spec: the missing Rust `start_tunnel` — "starting an
already-running tunnel is a no-op success, not a second process"; otherwise
one process is spawned for the id. -/
def start_tunnel (st : OrchState) (id : String) : OrchState :=
  if st.liveProcs.contains id then st
  else { st with liveProcs := id :: st.liveProcs }

/-- `TunnelCard`: the single inline lifecycle control is Stop when
`tunnel.status === 'running'` and Start otherwise. -/
def tunnelCardPrimaryAction (status : String) : String :=
  if status == "running" then "stop" else "start"

/-- `TunnelCard`: `disabled={loading || tunnel.status === 'running'}` on the
delete control (identical on the edit control). -/
def tunnelCardDeleteDisabled (loading : Bool) (status : String) : Bool :=
  loading || status == "running"

/-! ## Toast queue (`useToast`) -/

/-- One toast message (`{ id, message, type }`). -/
structure ToastMsg where
  id : Nat
  message : String
  type : String
deriving DecidableEq

/-- `showToast`'s state update: append, then `newMessages.slice(-5)` — the at
most five last elements. -/
def showToast (msgs : List ToastMsg) (m : ToastMsg) : List ToastMsg :=
  let newMessages := msgs ++ [m]
  newMessages.drop (newMessages.length - 5)

/-- `removeToast`'s state update: `prev.filter((msg) => msg.id !== id)`. -/
def removeToast (msgs : List ToastMsg) (id : Nat) : List ToastMsg :=
  msgs.filter (fun msg => !(msg.id == id))

/-- A user-visible operation on the toast queue. -/
inductive ToastOp where
  | showMsg (m : ToastMsg)
  | removeMsg (id : Nat)

/-- Apply one toast operation to the queue. -/
def applyToastOp (msgs : List ToastMsg) : ToastOp → List ToastMsg
  | ToastOp.showMsg m => showToast msgs m
  | ToastOp.removeMsg id => removeToast msgs id

/-- The queue after a sequence of operations, starting from the initial
`useState([])`. -/
def runToastOps (ops : List ToastOp) : List ToastMsg :=
  ops.foldl applyToastOp []

/-! ## Peer-stats listener (`usePeerStatsListener`) -/

/-- Modelled from the spec: one entry of a `peer-stats-updated` payload —
"events keyed by peer public key → (tx_bytes, rx_bytes,
last_handshake_unix_seconds), cumulative values as reported by the process"
(the Rust emitter is not among the sources). -/
structure PeerStatEntry where
  publicKey : String
  txBytes : Nat
  rxBytes : Nat
  lastHandshake : Nat
deriving DecidableEq

/-- Observable events in the life of one `usePeerStatsListener` effect. -/
inductive ListenerEvent where
  | resolved
  | statsEvent (payload : List PeerStatEntry)
  | cleanup
deriving DecidableEq

/-- State of one `usePeerStatsListener` effect: whether the `listen` promise
has resolved (handler attached, `unlisten` assigned), whether `unlisten()`
has been called, whether the React cleanup has run, and the payloads handed
to `onStatsUpdate` so far, in order. -/
structure ListenerState where
  registered : Bool
  unlistened : Bool
  cleanedUp : Bool
  delivered : List (List PeerStatEntry)
deriving DecidableEq

/-- One step of the effect's observable behaviour:
* `resolved`: the `listen(...)` promise resolves and the handler is attached;
  this happens even when the cleanup already ran, because that cleanup saw
  `unlisten === undefined` and did nothing;
* `statsEvent p`: the handler forwards `event.payload` unchanged, exactly
  once, iff it is attached and not unlistened;
* `cleanup`: React runs `() => { if (unlisten) unlisten(); }`, which
  unsubscribes only when the promise had already resolved. -/
def listenerStep (s : ListenerState) : ListenerEvent → ListenerState
  | ListenerEvent.resolved => { s with registered := true }
  | ListenerEvent.statsEvent p =>
    if s.registered && !s.unlistened then
      { s with delivered := s.delivered ++ [p] }
    else s
  | ListenerEvent.cleanup =>
    { s with cleanedUp := true, unlistened := s.registered || s.unlistened }

/-- State at mount: promise pending, nothing delivered. -/
def listenerInit : ListenerState where
  registered := false
  unlistened := false
  cleanedUp := false
  delivered := []

/-- Run one effect instance over a sequence of events. -/
def runListener (evs : List ListenerEvent) : ListenerState :=
  evs.foldl listenerStep listenerInit

/-! ## `formatTime` -/

/-- `formatTime` of `TunnelManagementView`.  The JS argument is a number,
`null` or `undefined`; the two non-number cases are `none`.  `!timestamp`
is additionally true for the number `0`.  `diff` is
`Math.floor((now - date) / 1000)` with both dates in milliseconds. -/
def formatTime (nowMs : Int) (timestamp : Option Int) : String :=
  match timestamp with
  | none => "从未"
  | some t =>
    if t = 0 then "从未"
    else
      let diff := Int.fdiv (nowMs - t * 1000) 1000
      if diff < 120 then toString diff ++ " 秒前"
      else if diff < 3600 then toString (Int.fdiv diff 60) ++ " 分钟前"
      else if diff < 86400 then toString (Int.fdiv diff 3600) ++ " 小时前"
      else toString (Int.fdiv diff 86400) ++ " 天前"

/-! ## Creation ids -/

/-- `Date.now().toString()` — the id assigned to a freshly created tunnel
(`handleSaveConfig`) and to a freshly created server (`handleNewServer`),
from the millisecond clock reading. -/
def mkCreateId (nowMs : Nat) : String :=
  toString nowMs

/-- The ids assigned by a sequence of create operations, given their
`Date.now()` readings. -/
def createIds (times : List Nat) : List String :=
  times.map mkCreateId

/-- Decimal decoding of a digit string, the left inverse of `Nat.repr` used
to show that distinct clock readings give distinct ids. -/
def decodeDigits (l : List Char) : Nat :=
  l.foldl (fun a c => 10 * a + (c.toNat - 48)) 0

/-! # Theorems -/

/-! ## Helper lemmas -/

theorem decodeDigits_append_singleton (xs : List Char) (c : Char) :
    decodeDigits (xs ++ [c]) = 10 * decodeDigits xs + (c.toNat - 48) := by
  unfold decodeDigits
  rw [List.foldl_append]
  rfl

theorem digitChar_decode {m : Nat} (h : m < 10) :
    (Nat.digitChar m).toNat - 48 = m := by
  interval_cases m <;> rfl

theorem toDigitsCore_acc (b : Nat) :
    ∀ (f n : Nat) (l : List Char),
      Nat.toDigitsCore b f n l = Nat.toDigitsCore b f n [] ++ l := by
  intro f
  induction f with
  | zero => intro n l; rfl
  | succ f ih =>
    intro n l
    simp only [Nat.toDigitsCore]
    by_cases h : n / b = 0
    · simp [h]
    · rw [if_neg h, if_neg h, ih (n / b) (Nat.digitChar (n % b) :: l),
        ih (n / b) [Nat.digitChar (n % b)]]
      simp

theorem decode_toDigitsCore :
    ∀ (f n : Nat), n < 10 ^ f → decodeDigits (Nat.toDigitsCore 10 f n []) = n := by
  intro f
  induction f with
  | zero =>
    intro n h
    have hn : n = 0 := by simpa using h
    subst hn
    rfl
  | succ f ih =>
    intro n h
    simp only [Nat.toDigitsCore]
    by_cases h0 : n / 10 = 0
    · rw [if_pos h0]
      have hn : n < 10 := (Nat.div_eq_zero_iff (by norm_num)).mp h0
      rw [Nat.mod_eq_of_lt hn]
      show decodeDigits [Nat.digitChar n] = n
      unfold decodeDigits
      simp [digitChar_decode hn]
    · rw [if_neg h0]
      rw [toDigitsCore_acc 10 f (n / 10) [Nat.digitChar (n % 10)]]
      rw [decodeDigits_append_singleton]
      have hdiv : n / 10 < 10 ^ f := by
        rw [Nat.div_lt_iff_lt_mul (by norm_num : (0:Nat) < 10)]
        calc n < 10 ^ (f + 1) := h
          _ = 10 ^ f * 10 := by rw [pow_succ]
      rw [ih (n / 10) hdiv, digitChar_decode (Nat.mod_lt n (by norm_num))]
      omega

theorem decode_repr (n : Nat) : decodeDigits (Nat.repr n).data = n := by
  have h : n < 10 ^ (n + 1) :=
    lt_of_lt_of_le (Nat.lt_pow_self (by norm_num) n)
      (Nat.pow_le_pow_right (by norm_num) (Nat.le_succ n))
  exact decode_toDigitsCore (n + 1) n h

theorem mkCreateId_injective : Function.Injective mkCreateId := by
  intro a b h
  have h' : Nat.repr a = Nat.repr b := h
  have ha := decode_repr a
  rw [h'] at ha
  exact ha.symm.trans (decode_repr b)

theorem jsStrOr_empty_default (s : String) : jsStrOr s "" = s := by
  unfold jsStrOr
  by_cases h : s = "" <;> simp [h]

theorem jsOptOr_jsStrOrNull (s : String) : jsOptOr (jsStrOrNull s) "" = s := by
  unfold jsOptOr jsStrOrNull
  by_cases h : s = "" <;> simp [h]

/-- Form→document→form is the identity on a peer whose AllowedIPs field is
non-empty and whose keep-alive is non-zero. -/
theorem editPeer_savePeer (p : FormPeer) (h1 : p.allowedIps ≠ "")
    (h2 : p.persistentKeepalive ≠ 0) :
    handleEditTunnelPeer (handleSaveConfigPeer p) = p := by
  cases p with
  | mk pk cpk psk ep addr aip ka rm =>
    simp only [handleEditTunnelPeer, handleSaveConfigPeer, jsOptOr_jsStrOrNull,
      jsStrOr_empty_default] at *
    simp [jsStrOr, if_neg h1, if_neg h2, h1, h2]

theorem find?_id_append_self (reg : List TunnelDoc) (d : TunnelDoc)
    (h : ∀ e ∈ reg, e.id ≠ d.id) :
    List.find? (fun e => e.id = d.id) (reg ++ [d]) = some d := by
  induction reg with
  | nil => simp [List.find?]
  | cons e rest ih =>
    have he : e.id ≠ d.id := h e (List.mem_cons_self e rest)
    simp only [List.cons_append, List.find?]
    rw [decide_eq_false he]
    exact ih fun x hx => h x (List.mem_cons_of_mem e hx)

theorem find?_id_map_update (reg : List TunnelDoc) (d : TunnelDoc)
    (h : reg.any (fun e => e.id = d.id) = true) :
    List.find? (fun e => e.id = d.id)
      (reg.map (fun e => if e.id = d.id then d else e)) = some d := by
  induction reg with
  | nil => simp at h
  | cons e rest ih =>
    by_cases he : e.id = d.id
    · simp [List.find?, he]
    · have hr : rest.any (fun e => e.id = d.id) = true := by
        simpa [List.any_cons, he] using h
      simp only [List.map_cons, if_neg he, List.find?]
      rw [decide_eq_false he]
      exact ih hr

/-- The spec-modelled registry returns a saved document unchanged. -/
theorem get_save_roundtrip (reg : List TunnelDoc) (d : TunnelDoc) :
    getTunnelConfig (saveTunnelConfig reg d) d.id = some d := by
  unfold getTunnelConfig saveTunnelConfig
  by_cases h : reg.any (fun e => e.id = d.id) = true
  · rw [if_pos h]
    exact find?_id_map_update reg d h
  · rw [if_neg h]
    refine find?_id_append_self reg d fun e he hc => h ?_
    rw [List.any_eq_true]
    exact ⟨e, he, by simp [hc]⟩

/-- The peer loop of `handleSaveConfig` succeeds exactly when every peer
passes its three checks, independently of the starting index. -/
theorem validateSavePeers_eq_none_iff (mode : String) :
    ∀ (i : Nat) (ps : List FormPeer),
      validateSavePeers mode i ps = none ↔
        ∀ p ∈ ps, p.publicKey ≠ "" ∧ p.allowedIps ≠ "" ∧
          (mode = "client" → p.endpoint ≠ "") := by
  intro i ps
  induction ps generalizing i with
  | nil => simp [validateSavePeers]
  | cons p rest ih =>
    simp only [validateSavePeers]
    by_cases h1 : p.publicKey = ""
    · simp [h1]
    · by_cases h2 : p.allowedIps = ""
      · simp [h1, h2]
      · by_cases h3 : mode = "client" ∧ p.endpoint = ""
        · simp only [if_neg h1, if_neg h2, if_pos h3]
          simp [h3.1, h3.2]
        · simp only [if_neg h1, if_neg h2, if_neg h3]
          rw [ih (i + 1)]
          constructor
          · intro hrest
            intro q hq
            rcases List.mem_cons.mp hq with hq | hq
            · subst hq
              refine ⟨h1, h2, fun hc => ?_⟩
              intro hep
              exact h3 ⟨hc, hep⟩
            · exact hrest q hq
          · intro hall q hq
            exact hall q (List.mem_cons_of_mem p hq)

/-- The full validation of `handleSaveConfig` succeeds exactly when every
check of the claim holds. -/
theorem validateSaveConfig_eq_none_iff (c : FormConfig) :
    validateSaveConfig c = none ↔
      (c.name ≠ "" ∧ c.mode ≠ "" ∧ c.privateKey ≠ "" ∧ c.address ≠ "" ∧
       (c.mode = "server" → c.serverEndpoint ≠ "") ∧ c.peers ≠ [] ∧
       ∀ p ∈ c.peers, p.publicKey ≠ "" ∧ p.allowedIps ≠ "" ∧
         (c.mode = "client" → p.endpoint ≠ "")) := by
  unfold validateSaveConfig
  by_cases h1 : c.name = ""
  · simp [h1]
  · rw [if_neg h1]
    by_cases h2 : c.mode = ""
    · simp [h1, h2]
    · rw [if_neg h2]
      by_cases h3 : c.privateKey = ""
      · simp [h1, h2, h3]
      · rw [if_neg h3]
        by_cases h4 : c.address = ""
        · simp [h1, h2, h3, h4]
        · rw [if_neg h4]
          by_cases h5 : c.mode = "server" ∧ c.serverEndpoint = ""
          · rw [if_pos h5]
            simp [h1, h2, h3, h4, h5.1, h5.2]
          · rw [if_neg h5]
            by_cases h6 : c.peers.length = 0
            · rw [if_pos h6]
              simp [List.length_eq_zero.mp h6]
            · rw [if_neg h6]
              rw [validateSavePeers_eq_none_iff]
              constructor
              · intro hall
                refine ⟨h1, h2, h3, h4, fun hm hse => h5 ⟨hm, hse⟩,
                  fun hnil => h6 (by simp [hnil]), hall⟩
              · intro hc
                exact hc.2.2.2.2.2.2

/-- A single toast operation keeps the queue at five messages or fewer. -/
theorem applyToastOp_length_le (msgs : List ToastMsg) (op : ToastOp)
    (h : msgs.length ≤ 5) : (applyToastOp msgs op).length ≤ 5 := by
  cases op with
  | showMsg m =>
    simp only [applyToastOp, showToast, List.length_drop, List.length_append]
    omega
  | removeMsg id => exact le_trans (List.length_filter_le _ _) h

theorem foldl_toastOps_length_le (ops : List ToastOp) :
    ∀ msgs : List ToastMsg, msgs.length ≤ 5 →
      (ops.foldl applyToastOp msgs).length ≤ 5 := by
  induction ops with
  | nil => intro msgs h; simpa using h
  | cons op rest ih =>
    intro msgs h
    simp only [List.foldl_cons]
    exact ih _ (applyToastOp_length_le msgs op h)

/-- `showToast` appends, dropping only the head when the queue is full. -/
theorem showToast_keeps_last_five (msgs : List ToastMsg) (m : ToastMsg)
    (h : msgs.length ≤ 5) :
    showToast msgs m =
      if msgs.length < 5 then msgs ++ [m] else msgs.tail ++ [m] := by
  unfold showToast
  by_cases h5 : msgs.length < 5
  · rw [if_pos h5]
    have hz : msgs.length + 1 - 5 = 0 := by omega
    simp [List.length_append, hz]
  · rw [if_neg h5]
    have h5' : msgs.length = 5 := by omega
    cases msgs with
    | nil => simp at h5'
    | cons x xs =>
      have hxs : xs.length = 4 := by simpa using h5'
      show List.drop ((x :: xs ++ [m]).length - 5) (x :: xs ++ [m]) = xs ++ [m]
      have hone : (x :: xs ++ [m]).length - 5 = 1 := by simp [hxs]
      rw [hone]
      simp

/-- `removeToast` deletes exactly the message carrying the id and keeps all
others in order. -/
theorem removeToast_removes_exactly (pre post : List ToastMsg) (m : ToastMsg)
    (id : Nat) (hm : m.id = id) (hpre : ∀ x ∈ pre, x.id ≠ id)
    (hpost : ∀ x ∈ post, x.id ≠ id) :
    removeToast (pre ++ m :: post) id = pre ++ post := by
  unfold removeToast
  rw [List.filter_append]
  have hkeep : ∀ (l : List ToastMsg), (∀ x ∈ l, x.id ≠ id) →
      l.filter (fun msg => !(msg.id == id)) = l := by
    intro l hl
    rw [List.filter_eq_self]
    intro a ha
    simp [hl a ha]
  rw [hkeep pre hpre]
  simp only [List.filter_cons]
  have hdrop : (!(m.id == id)) = false := by simp [hm]
  rw [hdrop]
  simp [hkeep post hpost]

/-- Once `unlisten()` has been called, no later event changes the delivered
payloads (and the listener stays unlistened). -/
theorem listener_unlistened_frozen (evs : List ListenerEvent) :
    ∀ s : ListenerState, s.unlistened = true →
      (evs.foldl listenerStep s).delivered = s.delivered := by
  induction evs with
  | nil => intro s _; rfl
  | cons e rest ih =>
    intro s h
    cases e with
    | resolved =>
      simp only [List.foldl_cons, listenerStep]
      exact ih _ h
    | statsEvent p =>
      simp only [List.foldl_cons, listenerStep, h]
      simp only [Bool.not_true, Bool.and_false, Bool.false_eq_true, if_false]
      exact ih _ h
    | cleanup =>
      simp only [List.foldl_cons, listenerStep]
      refine ih _ ?_
      show (s.registered || s.unlistened) = true
      rw [h, Bool.or_true]

/-- Registration persists: no event resets `registered`. -/
theorem listener_registered_persists (evs : List ListenerEvent) :
    ∀ s : ListenerState, s.registered = true →
      (evs.foldl listenerStep s).registered = true := by
  induction evs with
  | nil => intro s h; exact h
  | cons e rest ih =>
    intro s h
    cases e with
    | resolved => exact ih _ rfl
    | statsEvent p =>
      simp only [List.foldl_cons, listenerStep]
      by_cases hc : (s.registered && !s.unlistened) = true
      · rw [if_pos hc]; exact ih _ h
      · rw [if_neg hc]; exact ih _ h
    | cleanup => exact ih _ h

/-- After a prefix containing the promise resolution, the handler is
attached. -/
theorem listener_resolved_registered (pre : List ListenerEvent) :
    ∀ s : ListenerState, ListenerEvent.resolved ∈ pre →
      (pre.foldl listenerStep s).registered = true := by
  induction pre with
  | nil => intro s h; simp at h
  | cons e rest ih =>
    intro s hmem
    rcases List.mem_cons.mp hmem with he | he
    · rw [← he]
      exact listener_registered_persists rest _ rfl
    · exact ih _ he

/-- Filtering an id out of the live-process list leaves no occurrence of
it. -/
theorem contains_filter_beq_self (l : List String) (id : String) :
    (l.filter (fun x => !(x == id))).contains id = false := by
  induction l with
  | nil => rfl
  | cons x xs ih =>
    cases hx : (x == id) with
    | true => simp [List.filter_cons, hx, ih]
    | false =>
      have hne : ¬(id = x) := by
        intro hc
        subst hc
        simp at hx
      simp [List.filter_cons, hx, List.contains_cons, ih, hne]

/-- No string with a suffix longer than two characters is the
never-handshaken marker. -/
theorem suffixed_ne_never (s suf : String) (h : 2 < suf.length) :
    s ++ suf ≠ "从未" := by
  intro hc
  have hlen := congrArg String.length hc
  rw [String.length_append] at hlen
  have h2 : ("从未" : String).length = 2 := by decide
  omega

/-! ## Claims -/

/-- C1 (counterexample): the form→document→form round trip of
`handleSaveConfig` / `handleEditTunnel` is not the identity on
`persistent_keepalive`: a quick-added client peer is created with
`persistentKeepalive = 0`, saved as `null` (`|| null`), and loaded back as
`25` (`|| 25`). -/
theorem quickAdd_peer_roundtrip_not_identity :
    handleEditTunnelPeer (handleSaveConfigPeer
        (quickAddClientPeer "cGs=" "cHJpdg==" "cHNr" "10.0.0.2/32" "laptop")) ≠
      quickAddClientPeer "cGs=" "cHJpdg==" "cHNr" "10.0.0.2/32" "laptop" ∧
    (quickAddClientPeer "cGs=" "cHJpdg==" "cHNr" "10.0.0.2/32"
        "laptop").persistentKeepalive = 0 ∧
    (handleEditTunnelPeer (handleSaveConfigPeer
        (quickAddClientPeer "cGs=" "cHJpdg==" "cHNr" "10.0.0.2/32"
          "laptop"))).persistentKeepalive = 25 := by
  refine ⟨by decide, rfl, by decide⟩

/-- C1 (amended): saving a document and loading it by id returns it
unchanged, including peer order (registry modelled from the spec); and the
form→document→form peer mapping is the identity on every field of every peer
whose AllowedIPs is non-empty (guaranteed by the save validation) and whose
keep-alive is non-zero — a keep-alive of 0 instead loads back as 25. -/
theorem save_then_get_roundtrip :
    (∀ (reg : List TunnelDoc) (d : TunnelDoc),
      getTunnelConfig (saveTunnelConfig reg d) d.id = some d)
  ∧ (∀ p : FormPeer, p.allowedIps ≠ "" → p.persistentKeepalive ≠ 0 →
      handleEditTunnelPeer (handleSaveConfigPeer p) = p) :=
  ⟨get_save_roundtrip, editPeer_savePeer⟩

theorem save_then_get_roundtrip_witness :
    (("10.0.0.8/32" : String) ≠ "" ∧ ((25 : Int) ≠ 0)) ∧
    handleEditTunnelPeer (handleSaveConfigPeer
        ⟨"k1", "", "s1", "", "10.0.0.8/32", "10.0.0.8/32", 25, "pc"⟩) =
      ⟨"k1", "", "s1", "", "10.0.0.8/32", "10.0.0.8/32", 25, "pc"⟩ :=
  ⟨⟨by decide, by decide⟩,
    save_then_get_roundtrip.2
      ⟨"k1", "", "s1", "", "10.0.0.8/32", "10.0.0.8/32", 25, "pc"⟩
      (by decide) (by decide)⟩

/-- C2: deleting a tunnel that owns a live process is rejected with the
typed Conflict error (an error result carries no new state, so nothing is
removed); after a stop of the same id, the delete succeeds and removes
exactly that configuration; in the frontend the delete control is disabled
whenever the status is "running". -/
theorem delete_running_rejected_conflict :
    ∀ (st : OrchState) (id : String),
      (st.liveProcs.contains id = true →
        delete_tunnel_config st id = Except.error OrchError.conflict)
    ∧ delete_tunnel_config (stop_tunnel st id) id =
        Except.ok ⟨st.configs.filter (fun d => !(d.id == id)),
          st.liveProcs.filter (fun x => !(x == id))⟩
    ∧ ∀ loading : Bool, tunnelCardDeleteDisabled loading "running" = true := by
  intro st id
  refine ⟨fun h => ?_, ?_, fun loading => ?_⟩
  · unfold delete_tunnel_config
    rw [if_pos h]
  · simp only [delete_tunnel_config, stop_tunnel, contains_filter_beq_self]
    simp
  · simp [tunnelCardDeleteDisabled]

theorem delete_running_rejected_conflict_witness :
    ((["t1"] : List String).contains "t1" = true) ∧
    delete_tunnel_config ⟨[], ["t1"]⟩ "t1" = Except.error OrchError.conflict :=
  ⟨by decide, (delete_running_rejected_conflict ⟨[], ["t1"]⟩ "t1").1 (by decide)⟩

/-- C3: starting an id twice leaves exactly one live process for the id and
the second start changes nothing (no-op success); the frontend only offers a
Stop action while the status is "running". -/
theorem start_twice_single_process :
    ∀ (st : OrchState) (id : String),
      start_tunnel (start_tunnel st id) id = start_tunnel st id
    ∧ (st.liveProcs.count id ≤ 1 →
        (start_tunnel st id).liveProcs.count id = 1
      ∧ (start_tunnel (start_tunnel st id) id).liveProcs.count id = 1)
    ∧ tunnelCardPrimaryAction "running" = "stop" := by
  intro st id
  refine ⟨?_, fun hle => ?_, by decide⟩
  · by_cases hmem : id ∈ st.liveProcs
    · simp [start_tunnel, hmem]
    · simp [start_tunnel, hmem]
  · by_cases hmem : id ∈ st.liveProcs
    · have h1 : 0 < st.liveProcs.count id := List.count_pos_iff.mpr hmem
      have hc : st.liveProcs.count id = 1 := le_antisymm hle h1
      simp [start_tunnel, hmem, hc]
    · have h0 : st.liveProcs.count id = 0 := List.count_eq_zero.mpr hmem
      simp [start_tunnel, hmem, h0]

theorem start_twice_single_process_witness :
    ((([] : List String).count "t1" ≤ 1)) ∧
    ((start_tunnel ⟨[], []⟩ "t1").liveProcs.count "t1" = 1 ∧
      (start_tunnel (start_tunnel ⟨[], []⟩ "t1") "t1").liveProcs.count "t1" = 1) :=
  ⟨by decide, (start_twice_single_process ⟨[], []⟩ "t1").2.1 (by decide)⟩

/-- C4: the mode of a stored tunnel survives every edit-then-save cycle:
`handleEditTunnel` loads the stored mode (defaulting only an absent one) and
`handleSaveConfig` writes back exactly the loaded mode with the existing id,
so a document saved with a non-empty mode keeps it. -/
theorem mode_immutable_edit_save :
    ∀ (d : TunnelDoc) (nowMs : Nat), d.mode ≠ "" →
      (handleEditTunnelForm d).mode = d.mode
    ∧ (handleSaveConfigDoc (handleEditTunnelForm d) (some d.id) nowMs).mode =
        d.mode
    ∧ (handleSaveConfigDoc (handleEditTunnelForm d) (some d.id) nowMs).id =
        d.id := by
  intro d nowMs h
  refine ⟨?_, ?_, rfl⟩
  · simp [handleEditTunnelForm, jsStrOr, h]
  · simp [handleSaveConfigDoc, handleEditTunnelForm, jsStrOr, h]

theorem mode_immutable_edit_save_witness :
    (("server" : String) ≠ "") ∧
    (handleSaveConfigDoc
        (handleEditTunnelForm
          ⟨"1", "vpn", "server", "priv", "10.0.0.1/24", "51820", "", "1420",
            "1.2.3.4", "0.0.0.0/0", [], 0⟩)
        (some "1") 99).mode = "server" :=
  ⟨by decide,
    (mode_immutable_edit_save
        ⟨"1", "vpn", "server", "priv", "10.0.0.1/24", "51820", "", "1420",
          "1.2.3.4", "0.0.0.0/0", [], 0⟩
        99 (by decide)).2.1⟩

/-- C5 (counterexample): ids are `Date.now().toString()`, so two distinct
create operations within the same millisecond receive the same id — the
two-element run below assigns a duplicated id. -/
theorem same_millisecond_ids_collide :
    createIds [1700000000000, 1700000000000] =
      ["1700000000000", "1700000000000"] ∧
    ¬(createIds [1700000000000, 1700000000000]).Nodup := by
  constructor
  · rfl
  · decide

/-- C5 (amended): create operations whose `Date.now()` readings are pairwise
distinct receive pairwise distinct ids (decimal rendering of the clock is
injective); uniqueness can fail only for creations in the same
millisecond. -/
theorem distinct_times_distinct_ids :
    ∀ times : List Nat, times.Nodup → (createIds times).Nodup := by
  intro times h
  exact h.map mkCreateId_injective

theorem distinct_times_distinct_ids_witness :
    ([1700000000000, 1700000000001] : List Nat).Nodup ∧
    (createIds [1700000000000, 1700000000001]).Nodup :=
  ⟨by decide, distinct_times_distinct_ids [1700000000000, 1700000000001]
    (by decide)⟩

/-- C6: `handleSaveConfig` reaches the `save_tunnel_config` call exactly when
every validation passes — name, mode, private key and address non-empty, a
server endpoint in server mode, a non-empty peer list, and per peer a public
key, AllowedIPs, and (client mode) an endpoint; on any failure it returns
first and the stored documents are unchanged. -/
theorem saveConfig_validates_then_persists :
    ∀ c : FormConfig,
      (validateSaveConfig c = none ↔
        (c.name ≠ "" ∧ c.mode ≠ "" ∧ c.privateKey ≠ "" ∧ c.address ≠ "" ∧
         (c.mode = "server" → c.serverEndpoint ≠ "") ∧ c.peers ≠ [] ∧
         ∀ p ∈ c.peers, p.publicKey ≠ "" ∧ p.allowedIps ≠ "" ∧
           (c.mode = "client" → p.endpoint ≠ "")))
    ∧ (∀ (reg : List TunnelDoc) (editingId : Option String) (nowMs : Nat),
        validateSaveConfig c ≠ none →
        handleSaveConfig reg c editingId nowMs = (reg, false)) := by
  intro c
  refine ⟨validateSaveConfig_eq_none_iff c, ?_⟩
  intro reg editingId nowMs h
  unfold handleSaveConfig
  cases hv : validateSaveConfig c with
  | none => exact absurd hv h
  | some e => rfl

theorem saveConfig_validates_then_persists_witness :
    (validateSaveConfig
        ⟨"", "server", "priv", "10.0.0.1/24", "", "", "1420", "1.2.3.4",
          "0.0.0.0/0", []⟩ ≠ none) ∧
    handleSaveConfig []
        ⟨"", "server", "priv", "10.0.0.1/24", "", "", "1420", "1.2.3.4",
          "0.0.0.0/0", []⟩ none 0 = ([], false) :=
  ⟨by decide,
    (saveConfig_validates_then_persists
        ⟨"", "server", "priv", "10.0.0.1/24", "", "", "1420", "1.2.3.4",
          "0.0.0.0/0", []⟩).2 [] none 0 (by decide)⟩

/-- C7 (counterexample): keys are not opaque to `handleSaveServer` — the same
form is accepted with a 44-character space-free public key but rejected when
only the public key (or only the preshared key) is replaced by the
3-character string "abc", so validation does inspect key content. -/
theorem serverKeys_are_inspected :
    validateSaveServer exampleServerForm = none ∧
    validateSaveServer { exampleServerForm with peer_public_key := "abc" } =
      some "服务端公钥长度必须为 44 个字符" ∧
    validateSaveServer { exampleServerForm with preshared_key := "abc" } =
      some "预共享密钥长度必须为 44 个字符" := by
  refine ⟨by decide, by decide, by decide⟩

/-- C7 (amended): `handleSaveServer` validates keys only shallowly: once the
name and emptiness checks pass, a public key containing a space, or of length
other than 44, is rejected with the corresponding message, and likewise any
non-empty preshared key; beyond space and length the content is not
examined. -/
theorem serverKeys_shallow_validation :
    ∀ f : ServerForm,
      jsTrim f.name ≠ "" → jsIncludesSpace f.name = false →
      jsTrim f.peer_public_key ≠ "" →
      ((jsIncludesSpace f.peer_public_key = true →
          validateSaveServer f = some "服务端公钥不允许包含空格")
       ∧ (jsIncludesSpace f.peer_public_key = false →
          f.peer_public_key.length ≠ 44 →
          validateSaveServer f = some "服务端公钥长度必须为 44 个字符")
       ∧ (jsIncludesSpace f.peer_public_key = false →
          f.peer_public_key.length = 44 → f.preshared_key ≠ "" →
          ((jsIncludesSpace f.preshared_key = true →
              validateSaveServer f = some "预共享密钥不允许包含空格")
           ∧ (jsIncludesSpace f.preshared_key = false →
              f.preshared_key.length ≠ 44 →
              validateSaveServer f = some "预共享密钥长度必须为 44 个字符")))) := by
  intro f h1 h2 h3
  refine ⟨fun hsp => ?_, fun hsp hlen => ?_, fun hsp hlen hne => ⟨fun hps => ?_, fun hps hplen => ?_⟩⟩
  · simp [validateSaveServer, h1, h2, h3, hsp]
  · simp [validateSaveServer, h1, h2, h3, hsp, hlen]
  · simp [validateSaveServer, h1, h2, h3, hsp, hlen, hne, hps]
  · simp [validateSaveServer, h1, h2, h3, hsp, hlen, hne, hps, hplen]

theorem serverKeys_shallow_validation_witness :
    (jsTrim ("home-router" : String) ≠ "" ∧
      jsIncludesSpace ("home-router" : String) = false ∧
      jsTrim ("abc" : String) ≠ "" ∧
      jsIncludesSpace ("abc" : String) = false ∧
      ("abc" : String).length ≠ 44) ∧
    validateSaveServer { exampleServerForm with peer_public_key := "abc" } =
      some "服务端公钥长度必须为 44 个字符" :=
  ⟨⟨by decide, by decide, by decide, by decide, by decide⟩,
    (serverKeys_shallow_validation
        { exampleServerForm with peer_public_key := "abc" }
        (by decide) (by decide) (by decide)).2.1 (by decide) (by decide)⟩

/-- C8 (counterexample): if the React cleanup runs before the `listen`
promise resolves, `unlisten` is still `undefined`, so the handler is attached
afterwards anyway and a later payload is still forwarded — the trace below
runs the cleanup first and nevertheless delivers the payload. -/
theorem cleanup_before_resolve_keeps_forwarding :
    (runListener [ListenerEvent.cleanup, ListenerEvent.resolved,
        ListenerEvent.statsEvent [⟨"pk", 3, 4, 0⟩]]).cleanedUp = true ∧
    (runListener [ListenerEvent.cleanup, ListenerEvent.resolved,
        ListenerEvent.statsEvent [⟨"pk", 3, 4, 0⟩]]).delivered =
      [[⟨"pk", 3, 4, 0⟩]] := by
  refine ⟨rfl, by decide⟩

/-- C8 (amended): while the handler is attached and not unlistened, each
`peer-stats-updated` payload is handed to the callback unchanged and exactly
once; and whenever the cleanup runs after the `listen` promise has resolved,
the events after the cleanup deliver nothing further.  (Payloads key peer
public keys to cumulative tx/rx/handshake triples per the spec; the emitter
is backend code outside the sources.) -/
theorem listener_forwards_until_cleanup :
    (∀ (s : ListenerState) (p : List PeerStatEntry),
      s.registered = true → s.unlistened = false →
      listenerStep s (ListenerEvent.statsEvent p) =
        { s with delivered := s.delivered ++ [p] })
  ∧ (∀ (pre post : List ListenerEvent), ListenerEvent.resolved ∈ pre →
      (runListener (pre ++ ListenerEvent.cleanup :: post)).delivered =
        (runListener (pre ++ [ListenerEvent.cleanup])).delivered) := by
  constructor
  · intro s p hr hu
    simp [listenerStep, hr, hu]
  · intro pre post hmem
    unfold runListener
    rw [List.foldl_append, List.foldl_append]
    simp only [List.foldl_cons, List.foldl_nil]
    have hreg := listener_resolved_registered pre listenerInit hmem
    apply listener_unlistened_frozen
    show ((pre.foldl listenerStep listenerInit).registered ||
        (pre.foldl listenerStep listenerInit).unlistened) = true
    rw [hreg, Bool.true_or]

theorem listener_forwards_until_cleanup_witness :
    (ListenerEvent.resolved ∈ [ListenerEvent.resolved]) ∧
    (runListener ([ListenerEvent.resolved] ++ ListenerEvent.cleanup ::
        [ListenerEvent.statsEvent [⟨"pk", 1, 2, 3⟩]])).delivered =
      (runListener ([ListenerEvent.resolved] ++
        [ListenerEvent.cleanup])).delivered :=
  ⟨by decide,
    listener_forwards_until_cleanup.2 [ListenerEvent.resolved]
      [ListenerEvent.statsEvent [⟨"pk", 1, 2, 3⟩]] (by decide)⟩

/-- C9: the toast queue never exceeds five messages under any operation
sequence; `showToast` appends at the end, discarding only the oldest entry
when the queue is full; `removeToast` removes exactly the message carrying
the given id and keeps every other message in order. -/
theorem toast_queue_bounded :
    (∀ ops : List ToastOp, (runToastOps ops).length ≤ 5)
  ∧ (∀ (msgs : List ToastMsg) (m : ToastMsg), msgs.length ≤ 5 →
      showToast msgs m =
        if msgs.length < 5 then msgs ++ [m] else msgs.tail ++ [m])
  ∧ (∀ (pre post : List ToastMsg) (m : ToastMsg) (id : Nat),
      m.id = id → (∀ x ∈ pre, x.id ≠ id) → (∀ x ∈ post, x.id ≠ id) →
      removeToast (pre ++ m :: post) id = pre ++ post) :=
  ⟨fun ops => foldl_toastOps_length_le ops [] (by simp),
    showToast_keeps_last_five, removeToast_removes_exactly⟩

theorem toast_queue_bounded_witness :
    ((([⟨1, "a", "info"⟩] : List ToastMsg)).length ≤ 5 ∧
      (⟨2, "b", "error"⟩ : ToastMsg).id = 2) ∧
    showToast [⟨1, "a", "info"⟩] ⟨2, "b", "error"⟩ =
      [⟨1, "a", "info"⟩, ⟨2, "b", "error"⟩] ∧
    removeToast [⟨1, "a", "info"⟩, ⟨2, "b", "error"⟩, ⟨3, "c", "success"⟩] 2 =
      [⟨1, "a", "info"⟩, ⟨3, "c", "success"⟩] := by
  refine ⟨⟨by decide, rfl⟩, ?_, ?_⟩
  · have h := toast_queue_bounded.2.1 [⟨1, "a", "info"⟩] ⟨2, "b", "error"⟩
      (by decide)
    exact h.trans (by decide)
  · exact toast_queue_bounded.2.2 [⟨1, "a", "info"⟩] [⟨3, "c", "success"⟩]
      ⟨2, "b", "error"⟩ 2 rfl (by decide) (by decide)

/-- C10: `formatTime` returns 从未 exactly for a missing (`null`/`undefined`)
or zero timestamp — a peer with `last_handshake = 0` shows as never
handshaken, not as a 1970 date; any non-zero timestamp renders as a relative
age picked by the 120 s / 3600 s / 86400 s thresholds. -/
theorem formatTime_never_iff_falsy :
    ∀ (nowMs : Int) (ts : Option Int),
      (formatTime nowMs ts = "从未" ↔ ts = none ∨ ts = some 0)
    ∧ (∀ t : Int, ts = some t → t ≠ 0 →
        formatTime nowMs ts =
          (let diff := Int.fdiv (nowMs - t * 1000) 1000
           if diff < 120 then toString diff ++ " 秒前"
           else if diff < 3600 then toString (Int.fdiv diff 60) ++ " 分钟前"
           else if diff < 86400 then toString (Int.fdiv diff 3600) ++ " 小时前"
           else toString (Int.fdiv diff 86400) ++ " 天前")) := by
  intro nowMs ts
  constructor
  · constructor
    · intro h
      cases ts with
      | none => exact Or.inl rfl
      | some t =>
        by_cases ht : t = 0
        · exact Or.inr (by rw [ht])
        · exfalso
          simp only [formatTime, if_neg ht] at h
          split_ifs at h <;> exact suffixed_ne_never _ _ (by decide) h
    · intro h
      rcases h with h | h <;> subst h <;> simp [formatTime]
  · intro t hts ht
    subst hts
    simp only [formatTime, if_neg ht]

theorem formatTime_never_iff_falsy_witness :
    ((some (10 : Int) = some (10 : Int)) ∧ ((10 : Int) ≠ 0)) ∧
    formatTime 129000 (some 10) = "119 秒前" := by
  refine ⟨⟨rfl, by decide⟩, ?_⟩
  have h := (formatTime_never_iff_falsy 129000 (some 10)).2 10 rfl (by decide)
  exact h.trans (by decide)
